import Mathlib

/-!
Shallow embedding of the aggregation, metric, ranking and outlier code of
the capstone repository (src/Prompt1.py .. src/Prompt8.py), together with
theorems settling the specification claims about it.

Modelling conventions: numeric measures are rationals (the Python code
computes with floats; exactness statements are about the summation
structure, not rounding), a pandas DataFrame is a list of typed rows,
Python `None` is `Option.none`, and float operations that can produce
non-finite values (division by zero, NaN propagation, `fillna`) are
modelled by the explicit `PdFloat` type below.
-/

namespace Capstone

/-- A fact row of the Prompt1 input relation: time key, service-line
dimension and the three summed hour measures (Billable Hours, Total
Hours, Utilized Hours). -/
structure Row where
  year : ℤ
  month : ℤ
  service : String
  billable : ℚ
  totalHours : ℚ
  utilized : ℚ
  deriving DecidableEq, Repr

/-- Quarter labels produced by Prompt1.py `get_quarter` (the strings
Q1..Q4 in the source). -/
inductive Quarter where
  | Q1 | Q2 | Q3 | Q4
  deriving DecidableEq, Repr

/-- Half-year labels produced by Prompt1.py `get_half_year` (the strings
H1/H2 in the source). -/
inductive HalfYear where
  | H1 | H2
  deriving DecidableEq, Repr

/-- Prompt1.py `get_quarter`: months 1-3 map to Q1, 4-6 to Q2, 7-9 to Q3,
10-12 to Q4; any other month falls through every branch and the Python
function returns `None`, modelled as `none`. -/
def get_quarter (month : ℤ) : Option Quarter :=
  if month = 1 ∨ month = 2 ∨ month = 3 then some Quarter.Q1
  else if month = 4 ∨ month = 5 ∨ month = 6 then some Quarter.Q2
  else if month = 7 ∨ month = 8 ∨ month = 9 then some Quarter.Q3
  else if month = 10 ∨ month = 11 ∨ month = 12 then some Quarter.Q4
  else none

/-- Prompt1.py `get_half_year`: `'H1' if month <= 6 else 'H2'` - note that
every integer month receives a label, including months outside 1-12. -/
def get_half_year (month : ℤ) : HalfYear :=
  if month ≤ 6 then HalfYear.H1 else HalfYear.H2

/-- Prompt1.py group selection `service_df`: the rows of the input frame
with the given `Year` and `Service Areas Shortname`. -/
def serviceRows (df : List Row) (year : ℤ) (service : String) : List Row :=
  df.filter (fun r => r.year == year && r.service == service)

/-- A bucket measure: the pandas `.sum()` of one numeric column over the
rows of a bucket (Prompt1.py lines 48-50, 73-75, 99-101). -/
def bucketSum (l : List Row) (f : Row → ℚ) : ℚ := (l.map f).sum

/-- Prompt1.py monthly bucket `month_df`: the rows of a group with the
given `Month` value. -/
def monthRows (l : List Row) (m : ℤ) : List Row :=
  l.filter (fun r => r.month == m)

/-- Prompt1.py `service_df['Month'].unique()`: the distinct month values
of a group, in order of first appearance. -/
def monthsPresent (l : List Row) : List ℤ := (l.map Row.month).dedup

theorem sum_fibers_cons {α β : Type} [DecidableEq β] (k : α → β) (f : α → ℚ)
    (a : α) (t : List α) :
    ∀ ms : List β, ms.Nodup →
      (ms.map (fun m => (((a :: t).filter (fun x => k x == m)).map f).sum)).sum
        = (if k a ∈ ms then f a else 0)
          + (ms.map (fun m => ((t.filter (fun x => k x == m)).map f).sum)).sum := by
  intro ms hnd
  induction ms with
  | nil => simp
  | cons m ms ih =>
    rcases List.nodup_cons.mp hnd with ⟨hm, hnd'⟩
    by_cases hk : k a = m
    · subst hk
      have h1 : (a :: t).filter (fun x => k x == k a) =
          a :: t.filter (fun x => k x == k a) := by
        simp [List.filter_cons]
      have h2 : k a ∉ ms := hm
      simp only [List.map_cons, List.sum_cons, h1, ih hnd', if_neg h2]
      simp [add_assoc]
    · have h1 : (a :: t).filter (fun x => k x == m) =
          t.filter (fun x => k x == m) := by
        simp [List.filter_cons, hk]
      have h2 : (k a ∈ m :: ms) ↔ (k a ∈ ms) := by
        simp [List.mem_cons, hk]
      simp only [List.map_cons, List.sum_cons, h1, ih hnd', h2]
      ring

theorem sum_fibers_dedup {α β : Type} [DecidableEq β] (k : α → β) (f : α → ℚ) :
    ∀ l : List α,
      (((l.map k).dedup).map
          (fun m => ((l.filter (fun a => k a == m)).map f).sum)).sum
        = (l.map f).sum := by
  intro l
  induction l with
  | nil => simp
  | cons a t ih =>
    by_cases hmem : k a ∈ t.map k
    · rw [List.map_cons, List.dedup_cons_of_mem hmem]
      rw [sum_fibers_cons k f a t _ (List.nodup_dedup _)]
      rw [if_pos (List.mem_dedup.mpr hmem)]
      rw [ih, List.map_cons, List.sum_cons]
    · rw [List.map_cons, List.dedup_cons_of_not_mem hmem]
      rw [List.map_cons, List.sum_cons]
      have hfib : t.filter (fun x => k x == k a) = [] := by
        refine List.filter_eq_nil_iff.mpr ?_
        intro x hx hkx
        exact hmem (List.mem_map.mpr ⟨x, hx, by simpa using hkx⟩)
      have hhead : ((a :: t).filter (fun x => k x == k a)).map f = [a].map f := by
        simp [List.filter_cons, hfib]
      rw [sum_fibers_cons k f a t _ (List.nodup_dedup _),
        if_neg (fun h => hmem (List.mem_dedup.mp h)), ih, hhead]
      simp [List.map_cons, List.sum_cons]

/-- C1: Roll-up invariant.  For every input relation, every group (a
service line within a year) and every numeric measure (in particular the
Billable Hours, Total Hours and Utilized Hours columns, i.e. any
`f : Row → ℚ`), the measure of the year-level bucket equals the sum of
the measures of that group's monthly buckets (one bucket per distinct
month value present in the group, exactly as Prompt1.py builds them),
with no row counted twice. -/
theorem rollup_invariant (df : List Row) (year : ℤ) (service : String)
    (f : Row → ℚ) :
    bucketSum (serviceRows df year service) f
      = ((monthsPresent (serviceRows df year service)).map
          (fun m => bucketSum (monthRows (serviceRows df year service) m) f)).sum := by
  unfold bucketSum monthsPresent monthRows
  exact (sum_fibers_dedup Row.month f (serviceRows df year service)).symm

/-- Prompt2.py `calculate_contribution_margin`.  The Python function is an
if/elif chain on `Total Revenue` and `Production Costs`:
revenue = 0 and cost = 0 returns 0; revenue = 0 and cost > 0 returns
-100; revenue < 0 returns the sign-flipped ratio; any remaining case
reaches the final unguarded `return margin / revenue * 100`.  When
revenue = 0 and cost < 0 the inner chain falls through and that final
division divides by zero, so the function produces no rational result
there; this is modelled as `none`. -/
def calculate_contribution_margin (margin revenue cost : ℚ) : Option ℚ :=
  if revenue = 0 then
    if cost = 0 then some 0
    else if 0 < cost then some (-100)
    else none
  else if revenue < 0 then some (-(margin / revenue) * 100)
  else some (margin / revenue * 100)

/-- Prompt2.py `calculate_budget_contribution_margin`: sign-flip for
negative budget revenue, naive ratio for any other nonzero budget
revenue, and 0 when budget revenue is 0 (no cost case split here). -/
def calculate_budget_contribution_margin (budgetMargin budgetRevenue : ℚ) : Option ℚ :=
  if budgetRevenue < 0 then some (-(budgetMargin / budgetRevenue) * 100)
  else if budgetRevenue ≠ 0 then some (budgetMargin / budgetRevenue * 100)
  else some 0

/-- C2: Contribution Margin percentage edge cases.  For every bucket:
revenue = 0 and cost = 0 gives 0; revenue = 0 and cost > 0 gives -100;
revenue < 0 gives the sign-flipped ratio -(margin/revenue)*100; otherwise
(the remaining defined branch, revenue > 0) the naive ratio
(margin/revenue)*100. -/
theorem contribution_margin_edge_cases (margin revenue cost : ℚ) :
    (revenue = 0 → cost = 0 →
      calculate_contribution_margin margin revenue cost = some 0) ∧
    (revenue = 0 → 0 < cost →
      calculate_contribution_margin margin revenue cost = some (-100)) ∧
    (revenue < 0 →
      calculate_contribution_margin margin revenue cost
        = some (-(margin / revenue) * 100)) ∧
    (0 < revenue →
      calculate_contribution_margin margin revenue cost
        = some (margin / revenue * 100)) := by
  refine ⟨?_, ?_, ?_, ?_⟩
  · intro h0 hc
    simp [calculate_contribution_margin, h0, hc]
  · intro h0 hc
    simp [calculate_contribution_margin, h0, hc.ne', hc]
  · intro hneg
    simp [calculate_contribution_margin, hneg.ne, hneg]
  · intro hpos
    simp [calculate_contribution_margin, hpos.ne', not_lt.mpr hpos.le]

/-- Witness for C2: the four branches at concrete inputs, obtained by
applying `contribution_margin_edge_cases` and evaluating. -/
theorem contribution_margin_edge_cases_witness :
    calculate_contribution_margin 5 0 0 = some 0 ∧
    calculate_contribution_margin 5 0 3 = some (-100) ∧
    calculate_contribution_margin 20 (-100) 0 = some (-(20 / (-100)) * 100) ∧
    calculate_contribution_margin 50 200 0 = some (50 / 200 * 100) := by
  refine ⟨?_, ?_, ?_, ?_⟩
  · exact (contribution_margin_edge_cases 5 0 0).1 rfl rfl
  · exact (contribution_margin_edge_cases 5 0 3).2.1 rfl (by norm_num)
  · exact (contribution_margin_edge_cases 20 (-100) 0).2.2.1 (by norm_num)
  · exact (contribution_margin_edge_cases 50 200 0).2.2.2 (by norm_num)

/-- C10 counterexample: for revenue = 0 and negative production costs the
dispatch of `calculate_contribution_margin` is not total - the inner
chain falls through to the unguarded division by zero (no rational
result), so the function returns neither 0 nor -100. -/
theorem cm_dispatch_not_total :
    calculate_contribution_margin 10 0 (-5) = none ∧
    (none : Option ℚ) ≠ some 0 ∧ (none : Option ℚ) ≠ some (-100) := by
  refine ⟨?_, by simp, by simp⟩
  simp [calculate_contribution_margin]

/-- C10 amended: for every row with revenue = 0, the dispatch returns one
of the defined edge-case values (0 or -100) only when production costs
are nonnegative; when production costs are negative the chain reaches the
unguarded division `margin / revenue` with revenue = 0 and produces no
defined value. -/
theorem cm_dispatch_total_on_nonneg_cost (margin cost : ℚ) :
    (0 ≤ cost →
      calculate_contribution_margin margin 0 cost = some 0 ∨
      calculate_contribution_margin margin 0 cost = some (-100)) ∧
    (cost < 0 → calculate_contribution_margin margin 0 cost = none) := by
  constructor
  · intro hc
    rcases eq_or_lt_of_le hc with h | h
    · left; simp [calculate_contribution_margin, h.symm]
    · right; simp [calculate_contribution_margin, h.ne', h]
  · intro hc
    simp [calculate_contribution_margin, hc.ne, not_lt.mpr hc.le]

/-- Witness for the amended C10 statement at concrete inputs. -/
theorem cm_dispatch_total_on_nonneg_cost_witness :
    (calculate_contribution_margin 7 0 2 = some 0 ∨
      calculate_contribution_margin 7 0 2 = some (-100)) ∧
    calculate_contribution_margin 7 0 (-2) = none := by
  exact ⟨(cm_dispatch_total_on_nonneg_cost 7 2).1 (by norm_num),
    (cm_dispatch_total_on_nonneg_cost 7 (-2)).2 (by norm_num)⟩

/-- Prompt1.py line 53: `billing_rate_avg`, computed from aggregated
totals with the zero-denominator guard `if total_hours > 0 else 0`. -/
def billing_rate_avg (billable total : ℚ) : ℚ :=
  if 0 < total then billable / total * 100 else 0

/-- The summed Billable Hours of a group, the rows given as
(billable, total) pairs. -/
def sumBillable (rows : List (ℚ × ℚ)) : ℚ := (rows.map Prod.fst).sum

/-- The summed Total Hours of a group. -/
def sumTotal (rows : List (ℚ × ℚ)) : ℚ := (rows.map Prod.snd).sum

/-- The group-level Billing Rate as Prompt1.py computes it: sum first,
divide once. -/
def groupBillingRate (rows : List (ℚ × ℚ)) : ℚ :=
  billing_rate_avg (sumBillable rows) (sumTotal rows)

/-- The per-row billing ratio of one (billable, total) row. -/
def perRowRate (p : ℚ × ℚ) : ℚ := billing_rate_avg p.1 p.2

/-- The arithmetic mean of per-row ratios - the quantity the spec says
must NOT be used; defined only to be compared against the source's
aggregated computation. -/
def meanPerRowRate (rows : List (ℚ × ℚ)) : ℚ :=
  (rows.map perRowRate).sum / rows.length

/-- C3 counterexample: the claim's "in particular differs from the
arithmetic mean of the per-row ratios whenever rows have unequal total
hours and unequal ratios" is false.  The three rows (0,1), (10,2), (4,4)
have pairwise distinct total hours (1, 2, 4) and pairwise distinct
per-row ratios (0, 500, 100), yet the aggregated Billing Rate and the
mean of per-row ratios are both exactly 200. -/
theorem billing_rate_mean_coincidence :
    groupBillingRate [((0 : ℚ), (1 : ℚ)), (10, 2), (4, 4)] = 200 ∧
    meanPerRowRate [((0 : ℚ), (1 : ℚ)), (10, 2), (4, 4)] = 200 ∧
    perRowRate ((0 : ℚ), (1 : ℚ)) ≠ perRowRate (10, 2) ∧
    perRowRate (10, 2) ≠ perRowRate ((4 : ℚ), (4 : ℚ)) ∧
    perRowRate ((0 : ℚ), (1 : ℚ)) ≠ perRowRate ((4 : ℚ), (4 : ℚ)) := by
  refine ⟨?_, ?_, ?_, ?_, ?_⟩ <;>
    norm_num [groupBillingRate, meanPerRowRate, perRowRate, billing_rate_avg,
      sumBillable, sumTotal]

/-- C3 amended: the group Billing Rate equals the ratio of summed
numerator to summed denominator times 100 whenever the summed total is
positive, and for a group of TWO rows with positive, unequal total hours
and unequal per-row ratios the aggregated rate always differs from the
arithmetic mean of the per-row ratios (with three or more rows the two
can coincide, as the counterexample shows). -/
theorem billing_rate_aggregate_before_divide :
    (∀ rows : List (ℚ × ℚ), 0 < sumTotal rows →
      groupBillingRate rows = sumBillable rows / sumTotal rows * 100) ∧
    (∀ b1 t1 b2 t2 : ℚ, 0 < t1 → 0 < t2 → t1 ≠ t2 → b1 / t1 ≠ b2 / t2 →
      groupBillingRate [(b1, t1), (b2, t2)]
        ≠ meanPerRowRate [(b1, t1), (b2, t2)]) := by
  constructor
  · intro rows hpos
    simp [groupBillingRate, billing_rate_avg, hpos]
  · intro b1 t1 b2 t2 ht1 ht2 hne hrat
    have ht1' : t1 ≠ 0 := ht1.ne'
    have ht2' : t2 ≠ 0 := ht2.ne'
    have hsum : (0 : ℚ) < t1 + t2 := by linarith
    have hsum' : t1 + t2 ≠ 0 := hsum.ne'
    have hcross : b1 * t2 - b2 * t1 ≠ 0 := by
      intro h
      apply hrat
      have : b1 * t2 = b2 * t1 := by linarith
      field_simp
      linarith [this]
    have hgroup : groupBillingRate [(b1, t1), (b2, t2)]
        = (b1 + b2) / (t1 + t2) * 100 := by
      simp [groupBillingRate, billing_rate_avg, sumBillable, sumTotal, hsum]
    have hmean : meanPerRowRate [(b1, t1), (b2, t2)]
        = (b1 / t1 * 100 + b2 / t2 * 100) / 2 := by
      simp [meanPerRowRate, perRowRate, billing_rate_avg, ht1, ht2]
    rw [hgroup, hmean]
    have hformula : (b1 + b2) / (t1 + t2) * 100
          - (b1 / t1 * 100 + b2 / t2 * 100) / 2
        = (t1 - t2) * (b1 * t2 - b2 * t1) * 100 / (2 * t1 * t2 * (t1 + t2)) := by
      field_simp
      ring
    intro heq
    rw [heq, sub_self] at hformula
    have hnum : (t1 - t2) * (b1 * t2 - b2 * t1) * 100 ≠ 0 :=
      mul_ne_zero (mul_ne_zero (sub_ne_zero.mpr hne) hcross) (by norm_num)
    have hden : 2 * t1 * t2 * (t1 + t2) ≠ 0 :=
      mul_ne_zero (mul_ne_zero (mul_ne_zero (by norm_num) ht1') ht2') hsum'
    exact div_ne_zero hnum hden hformula.symm

/-- Witness for the amended C3 statement: both conjuncts instantiated at
concrete inputs. -/
theorem billing_rate_aggregate_before_divide_witness :
    groupBillingRate [((1 : ℚ), (1 : ℚ)), (3, 2)] = sumBillable [((1 : ℚ), (1 : ℚ)), (3, 2)] / sumTotal [((1 : ℚ), (1 : ℚ)), (3, 2)] * 100 ∧
    groupBillingRate [((1 : ℚ), (1 : ℚ)), (3, 2)]
      ≠ meanPerRowRate [((1 : ℚ), (1 : ℚ)), (3, 2)] := by
  refine ⟨billing_rate_aggregate_before_divide.1 _ ?_,
    billing_rate_aggregate_before_divide.2 1 1 3 2 (by norm_num) (by norm_num)
      (by norm_num) (by norm_num)⟩
  norm_num [sumTotal]

/-- The values a pandas float computation can produce: a finite rational,
positive or negative infinity, or NaN.  A missing value (the `shift`
fallback, a failed left-merge) is also NaN in a pandas float column. -/
inductive PdFloat where
  | fin : ℚ → PdFloat
  | inf : PdFloat
  | ninf : PdFloat
  | nan : PdFloat
  deriving DecidableEq, Repr

/-- Float division of finite operands as numpy/pandas evaluates it:
division by zero gives NaN for 0/0 and a signed infinity otherwise. -/
def pdDiv (a b : ℚ) : PdFloat :=
  if b = 0 then
    if a = 0 then PdFloat.nan
    else if 0 < a then PdFloat.inf
    else PdFloat.ninf
  else PdFloat.fin (a / b)

/-- Multiplication of a pandas float by the positive constant 100 (as in
`... * 100`): finite values scale, infinities and NaN are preserved. -/
def PdFloat.scale100 : PdFloat → PdFloat
  | PdFloat.fin q => PdFloat.fin (q * 100)
  | PdFloat.inf => PdFloat.inf
  | PdFloat.ninf => PdFloat.ninf
  | PdFloat.nan => PdFloat.nan

/-- pandas `fillna(0)`: replaces NaN by 0 and leaves every other value -
including infinities - unchanged. -/
def PdFloat.fillna0 : PdFloat → PdFloat
  | PdFloat.nan => PdFloat.fin 0
  | x => x

/-- pandas `isna` on a float value: only NaN (which is also how `None`
is stored in a float column) counts as null; infinities do not. -/
def PdFloat.isNull : PdFloat → Bool
  | PdFloat.nan => true
  | _ => false

/-- Prompt2.py lines 102-108, the `Change %` lambda of
`generate_bar_chart`: `(cur - prev) / abs(prev) * 100` guarded by
`pd.notnull(prev) and prev != 0`, else 0.  A previous value missing from
the left-merge is `none`. -/
def changePct (cur : ℚ) (prev : Option ℚ) : ℚ :=
  match prev with
  | some p => if p ≠ 0 then (cur - p) / abs p * 100 else 0
  | none => 0

/-- Prompt7.py lines 35-42, the month-over-month change:
`(cur - prev) / prev * 100` (signed previous value, no abs), followed by
`fillna(0)`.  `prev = none` models the NaN produced by `shift(1)` at the
first month of a group. -/
def momChangeP7 (cur : ℚ) (prev : Option ℚ) : PdFloat :=
  match prev with
  | none => PdFloat.fillna0 PdFloat.nan
  | some p => PdFloat.fillna0 ((pdDiv (cur - p) p).scale100)

/-- C4 counterexample: with current = 50 and previous = -50, the claim
says the reported change is (50 - (-50)) / abs (-50) * 100 = 200, but
Prompt7's MoM computation divides by the signed previous value and
reports -200. -/
theorem mom_change_sign_counterexample :
    momChangeP7 50 (some (-50)) = PdFloat.fin (-200) ∧
    (50 - (-50)) / abs ((-50 : ℚ)) * 100 = 200 ∧
    PdFloat.fin (-200) ≠ PdFloat.fin 200 := by
  refine ⟨?_, by norm_num, by decide⟩
  norm_num [momChangeP7, pdDiv, PdFloat.scale100, PdFloat.fillna0]

/-- C4 amended: Prompt2's chart comparison behaves exactly as the claim
says (delta (cur-prev)/abs(prev)*100, and 0 for a null or zero previous
value); Prompt7's MoM instead divides by the SIGNED previous value,
reports 0 for a null previous value, and a zero previous value with a
nonzero current yields a non-finite value (an infinity that `fillna(0)`
does not replace), not 0. -/
theorem period_over_period_delta (cur p : ℚ) :
    changePct cur none = 0 ∧
    changePct cur (some 0) = 0 ∧
    (p ≠ 0 → changePct cur (some p) = (cur - p) / abs p * 100) ∧
    momChangeP7 cur none = PdFloat.fin 0 ∧
    (p ≠ 0 → momChangeP7 cur (some p) = PdFloat.fin ((cur - p) / p * 100)) ∧
    (cur ≠ 0 → momChangeP7 cur (some 0) = PdFloat.inf ∨
      momChangeP7 cur (some 0) = PdFloat.ninf) := by
  refine ⟨rfl, by simp [changePct], ?_, rfl, ?_, ?_⟩
  · intro hp
    simp [changePct, hp]
  · intro hp
    simp [momChangeP7, pdDiv, hp, PdFloat.scale100, PdFloat.fillna0]
  · intro hc
    have h0 : cur - (0 : ℚ) ≠ 0 := by simpa using hc
    rcases lt_or_gt_of_ne h0 with h | h
    · right
      show ((pdDiv (cur - 0) 0).scale100).fillna0 = PdFloat.ninf
      unfold pdDiv
      rw [if_pos rfl, if_neg h0, if_neg (not_lt.mpr h.le)]
      rfl
    · left
      show ((pdDiv (cur - 0) 0).scale100).fillna0 = PdFloat.inf
      unfold pdDiv
      rw [if_pos rfl, if_neg h0, if_pos h]
      rfl

/-- Witness for the amended C4 statement at concrete inputs. -/
theorem period_over_period_delta_witness :
    changePct 5 (some 2) = (5 - 2) / abs (2 : ℚ) * 100 ∧
    momChangeP7 5 (some 2) = PdFloat.fin ((5 - 2) / 2 * 100) ∧
    (momChangeP7 5 (some 0) = PdFloat.inf ∨
      momChangeP7 5 (some 0) = PdFloat.ninf) := by
  exact ⟨(period_over_period_delta 5 2).2.2.1 (by norm_num),
    (period_over_period_delta 5 2).2.2.2.2.1 (by norm_num),
    (period_over_period_delta 5 2).2.2.2.2.2 (by norm_num)⟩

/-- C8 counterexample: an input row with month 13 (outside 1-12) is NOT
rejected - Prompt1.py assigns it to the half-year bucket H2, because
`get_half_year` labels every integer month (`'H1' if month <= 6 else
'H2'`).  This contradicts the claim that such a row is skipped and in
particular never assigned to any half-year bucket (and no skipped-row
count exists anywhere in the script). -/
theorem invalid_month_gets_half_year_bucket :
    get_half_year 13 = HalfYear.H2 := by
  simp [get_half_year]

/-- C8 amended: an out-of-range month is not rejected and no skip count
is surfaced.  `get_quarter` does fall through all branches and yields no
quarter label (Python `None`) for it, but `get_half_year` still assigns
it to H1 (month at most 6, including zero and negative months) or H2
(month at least 7, including months above 12), so the row lands in a
half-year bucket and the year and month buckets also keep it. -/
theorem invalid_month_handling (m : ℤ) (hm : m < 1 ∨ 12 < m) :
    get_quarter m = none ∧
    (get_half_year m = HalfYear.H1 ∨ get_half_year m = HalfYear.H2) := by
  constructor
  · unfold get_quarter
    rcases hm with h | h <;>
      rw [if_neg (by omega), if_neg (by omega), if_neg (by omega),
        if_neg (by omega)]
  · rcases le_or_lt m 6 with h | h
    · left
      simp [get_half_year, h]
    · right
      simp [get_half_year, not_le.mpr h]

/-- Witness for the amended C8 statement at month 13. -/
theorem invalid_month_handling_witness :
    get_quarter 13 = none ∧
    (get_half_year 13 = HalfYear.H1 ∨ get_half_year 13 = HalfYear.H2) :=
  invalid_month_handling 13 (Or.inr (by norm_num))

/-- One employee's aggregated totals in Prompt8.py
`analyze_below_median_employees` (the groupby on `Employee ID` summing
`Total_Revenue` and `Total_Hours`). -/
structure EmpAgg where
  empId : ℕ
  revenue : ℚ
  hours : ℚ
  deriving DecidableEq, Repr

/-- Prompt7.py line 27: `Hourly_Rate = Total Revenue / Total Hours`, a
plain pandas division with no guard - zero total hours yields a signed
infinity (or NaN for 0/0), not a null. -/
def hourlyRateP7 (revenue totalHours : ℚ) : PdFloat :=
  pdDiv revenue totalHours

/-- Prompt8.py lines 47-50 and 64-67: the hourly-rate lambda
`revenue / hours if hours > 0 else None`. -/
def hourlyRateP8 (revenue totalHours : ℚ) : Option ℚ :=
  if 0 < totalHours then some (revenue / totalHours) else none

/-- The hourly rate of one aggregated employee row (Prompt8.py). -/
def empHourlyRate (e : EmpAgg) : Option ℚ :=
  hourlyRateP8 e.revenue e.hours

/-- Ascending sort of a list of rationals (pandas sorts the values before
median and quantile computations). -/
def sortQ (l : List ℚ) : List ℚ :=
  List.insertionSort (fun a b => a ≤ b) l

/-- pandas `Series.median`: NaN (modelled `none`) on an empty series,
the middle element for odd length, the mean of the two middle elements
for even length. -/
def medianQ (l : List ℚ) : Option ℚ :=
  let s := sortQ l
  let n := s.length
  if n = 0 then none
  else if n % 2 = 1 then some (s.getD (n / 2) 0)
  else some ((s.getD (n / 2 - 1) 0 + s.getD (n / 2) 0) / 2)

/-- Prompt8.py lines 52-53 and 73-75: the median is taken over the
`dropna()`d hourly rates, and an employee is selected when
`rate < median` - a comparison that is false whenever the rate (or the
median of an empty valid set) is null. -/
def belowMedianEmployees (emps : List EmpAgg) : List EmpAgg :=
  match medianQ (emps.filterMap empHourlyRate) with
  | none => []
  | some m =>
      emps.filter (fun e =>
        match empHourlyRate e with
        | some r => decide (r < m)
        | none => false)

/-- C9 counterexample: in Prompt7 a bucket with positive revenue and zero
total hours gets hourly rate +infinity - a non-null value - not the
undefined/null the claim requires at total_hours = 0. -/
theorem hourly_rate_zero_hours_not_null_in_p7 :
    hourlyRateP7 100 0 = PdFloat.inf ∧
    PdFloat.isNull (hourlyRateP7 100 0) = false := by
  constructor <;> decide

/-- C9 amended: in Prompt8 the hourly rate is revenue/hours for positive
hours and null (None) otherwise, and a null rate is never selected by the
below-median filter; in Prompt7 the unguarded division instead turns a
zero-hours bucket into a signed infinity (NaN only for 0/0), which pandas
does not treat as null. -/
theorem hourly_rate_null_handling (rev hours : ℚ) (emps : List EmpAgg)
    (e : EmpAgg) :
    (0 < hours → hourlyRateP8 rev hours = some (rev / hours)) ∧
    (¬ 0 < hours → hourlyRateP8 rev hours = none) ∧
    (e ∈ belowMedianEmployees emps → empHourlyRate e ≠ none) ∧
    (0 < rev → hourlyRateP7 rev 0 = PdFloat.inf) ∧
    (rev < 0 → hourlyRateP7 rev 0 = PdFloat.ninf) ∧
    hourlyRateP7 0 0 = PdFloat.nan := by
  refine ⟨?_, ?_, ?_, ?_, ?_, by decide⟩
  · intro hp
    simp [hourlyRateP8, hp]
  · intro hp
    simp [hourlyRateP8, hp]
  · intro hmem
    unfold belowMedianEmployees at hmem
    cases hmed : medianQ (emps.filterMap empHourlyRate) with
    | none => rw [hmed] at hmem; simp at hmem
    | some m =>
        rw [hmed] at hmem
        have hsel := (List.mem_filter.mp hmem).2
        intro hnone
        simp only [hnone] at hsel
        exact Bool.false_ne_true hsel
  · intro hp
    simp [hourlyRateP7, pdDiv, hp, hp.ne']
  · intro hp
    simp [hourlyRateP7, pdDiv, hp.ne, not_lt.mpr hp.le]

/-- Witness for the amended C9 statement: employee 2 (rate 5) is selected
below the median 12.5 and indeed has a non-null rate; the Prompt8 rate
evaluates as claimed on positive hours. -/
theorem hourly_rate_null_handling_witness :
    empHourlyRate ⟨2, 5, 1⟩ ≠ none ∧
    hourlyRateP8 10 2 = some (10 / 2) := by
  have hmem : (⟨2, 5, 1⟩ : EmpAgg)
      ∈ belowMedianEmployees [⟨1, 10, 0⟩, ⟨2, 5, 1⟩, ⟨3, 20, 1⟩] := by
    have h : belowMedianEmployees [⟨1, 10, 0⟩, ⟨2, 5, 1⟩, ⟨3, 20, 1⟩]
        = [⟨2, 5, 1⟩] := by
      norm_num [belowMedianEmployees, medianQ, sortQ, empHourlyRate,
        hourlyRateP8, List.insertionSort, List.orderedInsert, List.filterMap,
        List.filter]
    rw [h]
    exact List.mem_singleton.mpr rfl
  exact ⟨(hourly_rate_null_handling 0 0
      [⟨1, 10, 0⟩, ⟨2, 5, 1⟩, ⟨3, 20, 1⟩] ⟨2, 5, 1⟩).2.2.1 hmem,
    (hourly_rate_null_handling 10 2 [] ⟨0, 0, 0⟩).1 (by norm_num)⟩

/-- pandas `.mean()` of a column. -/
def meanQ (l : List ℚ) : ℚ := l.sum / l.length

/-- The square of pandas `.std()` with its default ddof = 1 (the sample
variance), as the total rational expression used when the list has at
least two elements. -/
def varQ (l : List ℚ) : ℚ :=
  ((l.map (fun x => (x - meanQ l) ^ 2)).sum) / ((l.length : ℚ) - 1)

/-- pandas `Series.std()` (default ddof = 1), squared: with fewer than
two observations the divisor is not positive and pandas returns NaN,
modelled as `none`; otherwise the sample variance. -/
def sampleVar (l : List ℚ) : Option ℚ :=
  if l.length ≤ 1 then none else some (varQ l)

/-- Prompt6.py `identify_outliers` lines 32-39: a billable-hours value is
flagged iff `value > task_mean + k * task_std`.  The standard deviation
sqrt(varQ) is irrational in general, so for k at least 0 the strict
comparison is encoded by its square:
v > mean + k*std iff v > mean and (v - mean)^2 > k^2 * var.  When the std
is NaN (partition of size 1) the Python comparison `v > NaN` is False,
so nothing is flagged. -/
def isOutlier (l : List ℚ) (k v : ℚ) : Bool :=
  match sampleVar l with
  | none => false
  | some sv => decide (meanQ l < v) && decide (k ^ 2 * sv < (v - meanQ l) ^ 2)

theorem varQ_nonneg (l : List ℚ) (hlen : 2 ≤ l.length) : 0 ≤ varQ l := by
  unfold varQ
  apply div_nonneg
  · apply List.sum_nonneg
    intro x hx
    rcases List.mem_map.mp hx with ⟨y, _, rfl⟩
    positivity
  · have h2 : (2 : ℚ) ≤ (l.length : ℚ) := by exact_mod_cast hlen
    linarith

/-- C6 counterexample: pandas `.std()` of a singleton partition is NaN
(ddof = 1 divides by zero), not the sigma = 0 the claim asserts; the
no-flag outcome still holds (comparison against NaN is False), but the
stated reason is false of the code. -/
theorem singleton_std_is_nan_not_zero :
    sampleVar [(5 : ℚ)] = none ∧ sampleVar [(5 : ℚ)] ≠ some 0 := by
  constructor <;> simp [sampleVar]

/-- C6 amended: with mean mu and SAMPLE standard deviation sigma
(pandas default ddof = 1) of the partition's billable hours, for a
partition with at least two observations exactly the values strictly
greater than mu + k*sigma are flagged (high-only - the strategy has no
Low label at all); a partition with exactly one observation has an
undefined (NaN) sample standard deviation - not sigma = 0 - and no value
is ever flagged there because a comparison with NaN is false. -/
theorem threshold_outlier_rule (l : List ℚ) (k v : ℚ) (hk : 0 ≤ k) :
    (2 ≤ l.length →
      (isOutlier l k v = true ↔
        (meanQ l : ℝ) + (k : ℝ) * Real.sqrt ((varQ l : ℝ)) < (v : ℝ))) ∧
    (l.length = 1 → isOutlier l k v = false) := by
  constructor
  · intro hlen
    have hsv : sampleVar l = some (varQ l) := by
      unfold sampleVar
      rw [if_neg (by omega)]
    have hvar0 : (0 : ℝ) ≤ (varQ l : ℝ) := by
      exact_mod_cast varQ_nonneg l hlen
    have hs : 0 ≤ Real.sqrt ((varQ l : ℝ)) := Real.sqrt_nonneg _
    have hs2 : Real.sqrt ((varQ l : ℝ)) ^ 2 = (varQ l : ℝ) := Real.sq_sqrt hvar0
    have hk' : (0 : ℝ) ≤ (k : ℝ) := by exact_mod_cast hk
    have hks : 0 ≤ (k : ℝ) * Real.sqrt ((varQ l : ℝ)) := mul_nonneg hk' hs
    unfold isOutlier
    rw [hsv]
    simp only [Bool.and_eq_true, decide_eq_true_eq]
    constructor
    · rintro ⟨h1, h2⟩
      have h1' : ((meanQ l : ℚ) : ℝ) < (v : ℝ) := by exact_mod_cast h1
      have h2' : ((k : ℚ) : ℝ) ^ 2 * ((varQ l : ℚ) : ℝ)
          < ((v : ℝ) - ((meanQ l : ℚ) : ℝ)) ^ 2 := by exact_mod_cast h2
      nlinarith [hs, hs2, hks]
    · intro h
      have h1' : ((meanQ l : ℚ) : ℝ) < (v : ℝ) := by nlinarith [hks]
      have h2' : ((k : ℚ) : ℝ) ^ 2 * ((varQ l : ℚ) : ℝ)
          < ((v : ℝ) - ((meanQ l : ℚ) : ℝ)) ^ 2 := by nlinarith [hs2, hks, hs]
      constructor
      · exact_mod_cast h1'
      · exact_mod_cast h2'
  · intro hlen
    have hsv : sampleVar l = none := by
      unfold sampleVar
      rw [if_pos (by omega)]
    unfold isOutlier
    rw [hsv]

/-- Witness for the amended C6 statement: a singleton partition flags
nothing, and the flagged value 6 of the partition [0,0,0,0,0,6] does
exceed mean + 2 * std there. -/
theorem threshold_outlier_rule_witness :
    isOutlier [(5 : ℚ)] 2 7 = false ∧
    ((meanQ [0, 0, 0, 0, 0, 6] : ℚ) : ℝ)
        + ((2 : ℚ) : ℝ) * Real.sqrt (((varQ [0, 0, 0, 0, 0, 6] : ℚ) : ℝ))
      < ((6 : ℚ) : ℝ) := by
  constructor
  · exact (threshold_outlier_rule [5] 2 7 (by norm_num)).2 rfl
  · refine ((threshold_outlier_rule [0, 0, 0, 0, 0, 6] 2 6 (by norm_num)).1
      (by norm_num)).mp ?_
    norm_num [isOutlier, sampleVar, varQ, meanQ]

/-- The outlier classification labels of Prompt5.py (the strings 'Low'
and 'High' in the source). -/
inductive OutlierType where
  | low | high
  deriving DecidableEq, Repr

/-- Linear interpolation at fractional position `h` into a sorted list,
exactly as pandas' default `interpolation='linear'` quantile evaluates:
with i = floor(h), the value is s[i] + (h - i) * (s[i+1] - s[i]) (and
s[i] itself when i is the last index). -/
def interpAt (s : List ℚ) (h : ℚ) : ℚ :=
  s.getD (⌊h⌋).toNat 0
    + (h - ((⌊h⌋).toNat : ℚ))
      * (s.getD ((⌊h⌋).toNat + 1) (s.getD (⌊h⌋).toNat 0)
          - s.getD (⌊h⌋).toNat 0)

/-- pandas `Series.quantile(q)` with the default linear interpolation:
sort the values and interpolate at position q * (n - 1).  Prompt5.py only
calls it on nonempty partitions; the empty case is given the dummy value
0 here. -/
def quantileLinear (l : List ℚ) (q : ℚ) : ℚ :=
  if l = [] then 0 else interpAt (sortQ l) (q * ((l.length : ℚ) - 1))

/-- Prompt5.py line 25: `Q1 = data[column].quantile(0.25)`. -/
def iqrQ1 (values : List ℚ) : ℚ := quantileLinear values (1/4)

/-- Prompt5.py line 26: `Q3 = data[column].quantile(0.75)`. -/
def iqrQ3 (values : List ℚ) : ℚ := quantileLinear values (3/4)

/-- Prompt5.py line 28: `lower_bound = Q1 - 1.5 * IQR`. -/
def iqrLowerBound (values : List ℚ) : ℚ :=
  iqrQ1 values - 3/2 * (iqrQ3 values - iqrQ1 values)

/-- Prompt5.py line 29: `upper_bound = Q3 + 1.5 * IQR`. -/
def iqrUpperBound (values : List ℚ) : ℚ :=
  iqrQ3 values + 3/2 * (iqrQ3 values - iqrQ1 values)

/-- Prompt5.py lines 32-35, the `np.where` labelling: strictly below the
lower bound gives 'Low', strictly above the upper bound gives 'High',
anything else gets no label (None). -/
def outlierLabel (values : List ℚ) (v : ℚ) : Option OutlierType :=
  if v < iqrLowerBound values then some OutlierType.low
  else if iqrUpperBound values < v then some OutlierType.high
  else none

/-- Prompt5.py line 36, `detect_outliers_iqr`'s returned row selection:
the values strictly outside the IQR bounds. -/
def detect_outliers_iqr (values : List ℚ) : List ℚ :=
  values.filter (fun v =>
    decide (v < iqrLowerBound values) || decide (iqrUpperBound values < v))

theorem sorted_getElem_le (s : List ℚ) (hs : List.Sorted (fun a b => a ≤ b) s)
    (a b : ℕ) (ha : a < s.length) (hb : b < s.length) (hab : a ≤ b) :
    s[a] ≤ s[b] := by
  rcases eq_or_lt_of_le hab with h | h
  · subst h
    exact le_refl _
  · exact List.pairwise_iff_getElem.mp hs a b ha hb h

theorem getD_succ_ge (s : List ℚ) (hs : List.Sorted (fun a b => a ≤ b) s)
    (i : ℕ) (hi : i < s.length) :
    s.getD i 0 ≤ s.getD (i + 1) (s.getD i 0) := by
  by_cases h : i + 1 < s.length
  · rw [List.getD_eq_getElem s _ h]
    rw [List.getD_eq_getElem s 0 hi]
    exact sorted_getElem_le s hs i (i + 1) hi h (Nat.le_succ i)
  · rw [List.getD_eq_default s _ (not_lt.mp h)]

theorem floor_toNat_cast_le (h : ℚ) (h0 : 0 ≤ h) :
    (((⌊h⌋).toNat : ℚ) ≤ h ∧ h < ((⌊h⌋).toNat : ℚ) + 1) := by
  have hfl : (0 : ℤ) ≤ ⌊h⌋ := Int.floor_nonneg.mpr h0
  have hcast : (((⌊h⌋).toNat : ℕ) : ℚ) = ((⌊h⌋ : ℤ) : ℚ) := by
    exact_mod_cast congrArg (fun z : ℤ => (z : ℚ)) (Int.toNat_of_nonneg hfl)
  constructor
  · rw [hcast]; exact Int.floor_le h
  · rw [hcast]; exact Int.lt_floor_add_one h

theorem interpAt_mono (s : List ℚ) (hs : List.Sorted (fun a b => a ≤ b) s)
    {h h' : ℚ} (h0 : 0 ≤ h) (hhh : h ≤ h') (hub : h' ≤ (s.length : ℚ) - 1) :
    interpAt s h ≤ interpAt s h' := by
  have h0' : 0 ≤ h' := le_trans h0 hhh
  obtain ⟨hle, hlt⟩ := floor_toNat_cast_le h h0
  obtain ⟨hle', hlt'⟩ := floor_toNat_cast_le h' h0'
  have hii : (⌊h⌋).toNat ≤ (⌊h'⌋).toNat :=
    Int.toNat_le_toNat (Int.floor_le_floor hhh)
  have hi'n : (⌊h'⌋).toNat < s.length := by
    have h1 : ((⌊h'⌋).toNat : ℚ) ≤ (s.length : ℚ) - 1 := le_trans hle' hub
    have h2 : ((⌊h'⌋).toNat : ℚ) + 1 ≤ (s.length : ℚ) := by linarith
    exact_mod_cast h2
  have hin : (⌊h⌋).toNat < s.length := lt_of_le_of_lt hii hi'n
  by_cases heq : (⌊h⌋).toNat = (⌊h'⌋).toNat
  · unfold interpAt
    rw [← heq]
    have hd : 0 ≤ s.getD ((⌊h⌋).toNat + 1) (s.getD (⌊h⌋).toNat 0)
        - s.getD (⌊h⌋).toNat 0 := by
      have := getD_succ_ge s hs (⌊h⌋).toNat hin
      linarith
    have hmul := mul_le_mul_of_nonneg_right
      (sub_le_sub_right hhh (((⌊h⌋).toNat : ℚ))) hd
    linarith
  · have hii' : (⌊h⌋).toNat < (⌊h'⌋).toNat := lt_of_le_of_ne hii heq
    have hsucc : (⌊h⌋).toNat + 1 ≤ (⌊h'⌋).toNat := hii'
    have hsn : (⌊h⌋).toNat + 1 < s.length := lt_of_le_of_lt hsucc hi'n
    have step1 : interpAt s h
        ≤ s.getD ((⌊h⌋).toNat + 1) (s.getD (⌊h⌋).toNat 0) := by
      unfold interpAt
      have hd : 0 ≤ s.getD ((⌊h⌋).toNat + 1) (s.getD (⌊h⌋).toNat 0)
          - s.getD (⌊h⌋).toNat 0 := by
        have := getD_succ_ge s hs (⌊h⌋).toNat hin
        linarith
      have hfrac : h - ((⌊h⌋).toNat : ℚ) ≤ 1 := by linarith
      have hmul := mul_le_mul_of_nonneg_right hfrac hd
      linarith
    have step2 : s.getD ((⌊h⌋).toNat + 1) (s.getD (⌊h⌋).toNat 0)
        ≤ s.getD ((⌊h'⌋).toNat) 0 := by
      rw [List.getD_eq_getElem s _ hsn, List.getD_eq_getElem s 0 hi'n]
      exact sorted_getElem_le s hs _ _ hsn hi'n hsucc
    have step3 : s.getD ((⌊h'⌋).toNat) 0 ≤ interpAt s h' := by
      unfold interpAt
      have hd : 0 ≤ s.getD ((⌊h'⌋).toNat + 1) (s.getD (⌊h'⌋).toNat 0)
          - s.getD (⌊h'⌋).toNat 0 := by
        have := getD_succ_ge s hs (⌊h'⌋).toNat hi'n
        linarith
      have hfrac : 0 ≤ h' - ((⌊h'⌋).toNat : ℚ) := by linarith
      nlinarith
    linarith

theorem q1_le_q3 (l : List ℚ) (hne : l ≠ []) :
    quantileLinear l (1/4) ≤ quantileLinear l (3/4) := by
  unfold quantileLinear
  rw [if_neg hne, if_neg hne]
  have hs : List.Sorted (fun a b => a ≤ b) (sortQ l) :=
    List.sorted_insertionSort _ l
  have hlen : (sortQ l).length = l.length := List.length_insertionSort _ _
  have hl1 : 1 ≤ l.length := List.length_pos.mpr hne
  have hl1' : (1 : ℚ) ≤ (l.length : ℚ) := by exact_mod_cast hl1
  have hx : (0 : ℚ) ≤ (l.length : ℚ) - 1 := by linarith
  apply interpAt_mono (sortQ l) hs
  · exact mul_nonneg (by norm_num) hx
  · exact mul_le_mul_of_nonneg_right (by norm_num) hx
  · rw [hlen]
    nlinarith

theorem iqr_bounds_le (values : List ℚ) (hne : values ≠ []) :
    iqrLowerBound values ≤ iqrUpperBound values := by
  have h := q1_le_q3 values hne
  unfold iqrLowerBound iqrUpperBound iqrQ1 iqrQ3
  linarith

theorem eval_q1 : iqrQ1 [1, 2, 3, 4, 5, 100] = 9/4 := by
  norm_num [iqrQ1, quantileLinear, interpAt, sortQ, List.insertionSort,
    List.orderedInsert, List.getD, List.cons_ne_nil]

theorem eval_q3 : iqrQ3 [1, 2, 3, 4, 5, 100] = 19/4 := by
  norm_num [iqrQ3, quantileLinear, interpAt, sortQ, List.insertionSort,
    List.orderedInsert, List.getD, List.cons_ne_nil]
  norm_num [show Int.toNat 3 = 3 from rfl]

theorem eval_low : iqrLowerBound [1, 2, 3, 4, 5, 100] = -(3/2) := by
  rw [iqrLowerBound, eval_q1, eval_q3]
  norm_num

theorem eval_upp : iqrUpperBound [1, 2, 3, 4, 5, 100] = 17/2 := by
  rw [iqrUpperBound, eval_q1, eval_q3]
  norm_num

theorem eval_detect : detect_outliers_iqr [1, 2, 3, 4, 5, 100] = [100] := by
  unfold detect_outliers_iqr
  rw [eval_low, eval_upp]
  norm_num [List.filter]

theorem eval_label :
    outlierLabel [1, 2, 3, 4, 5, 100] 100 = some OutlierType.high := by
  unfold outlierLabel
  rw [eval_low, eval_upp]
  norm_num

/-- C5: IQR outlier labelling.  For every nonempty partition, with Q1 and
Q3 the 0.25/0.75 linear-interpolation quantiles and IQR = Q3 - Q1,
exactly the values strictly below Q1 - 1.5*IQR are labelled Low, exactly
the values strictly above Q3 + 1.5*IQR are labelled High, values within
the bounds get no label, the returned outliers are exactly the values
outside the bounds, and on [1,2,3,4,5,100] only 100 is flagged and it is
labelled High. -/
theorem iqr_outlier_labeling (values : List ℚ) (v : ℚ) (hne : values ≠ []) :
    (v ∈ detect_outliers_iqr values ↔
      v ∈ values ∧ (v < iqrLowerBound values ∨ iqrUpperBound values < v)) ∧
    (outlierLabel values v = some OutlierType.low ↔ v < iqrLowerBound values) ∧
    (outlierLabel values v = some OutlierType.high ↔ iqrUpperBound values < v) ∧
    (outlierLabel values v = none ↔
      iqrLowerBound values ≤ v ∧ v ≤ iqrUpperBound values) ∧
    detect_outliers_iqr [1, 2, 3, 4, 5, 100] = [100] ∧
    outlierLabel [1, 2, 3, 4, 5, 100] 100 = some OutlierType.high := by
  have hb := iqr_bounds_le values hne
  refine ⟨?_, ?_, ?_, ?_, eval_detect, eval_label⟩
  · simp [detect_outliers_iqr, List.mem_filter]
  · unfold outlierLabel
    by_cases h1 : v < iqrLowerBound values
    · simp [h1]
    · by_cases h2 : iqrUpperBound values < v
      · simp [h1, h2]
      · simp [h1, h2]
  · unfold outlierLabel
    by_cases h1 : v < iqrLowerBound values
    · rw [if_pos h1]
      constructor
      · intro hEq
        exfalso
        simp at hEq
      · intro h2
        exfalso
        linarith
    · by_cases h2 : iqrUpperBound values < v
      · simp [h1, h2]
      · simp [h1, h2]
  · unfold outlierLabel
    by_cases h1 : v < iqrLowerBound values
    · rw [if_pos h1]
      constructor
      · intro hEq
        exact (Option.some_ne_none _ hEq).elim
      · rintro ⟨hl, _⟩
        exfalso
        linarith
    · by_cases h2 : iqrUpperBound values < v
      · rw [if_neg h1, if_pos h2]
        constructor
        · intro hEq
          exact (Option.some_ne_none _ hEq).elim
        · rintro ⟨_, hu⟩
          exfalso
          linarith
      · rw [if_neg h1, if_neg h2]
        simp [not_lt.mp h1, not_lt.mp h2]

/-- Witness for C5: the High-labelling equivalence applied to the
concrete fixture [1,2,3,4,5,100] at value 100. -/
theorem iqr_outlier_labeling_witness :
    outlierLabel [1, 2, 3, 4, 5, 100] 100 = some OutlierType.high :=
  ((iqr_outlier_labeling [1, 2, 3, 4, 5, 100] 100 (by simp)).2.2.1).mpr
    (by rw [eval_upp]; norm_num)

end Capstone
